import Mathlib

/-!
Verification of the batch-compilation pipeline orchestrator
(`compileFilesParallelPhase2` / `compileAndWriteFilesParallel`).

The TypeScript source is shallowly embedded: the external collaborators
(the per-unit transformer, the AST renderer, the output-path mapping, the
pre-emit diagnostic providers) are opaque functions collected in a
`TransformEnv`; the destination filesystem is a map from paths to file
contents; the asynchronous batched writes are linearized (each batch is a
`Promise.all` over tasks touching distinct destination paths, per the
no-collision invariant the path mapping must guarantee, so the
linearization is faithful for the properties stated here).
-/

namespace Pipeline

/-- Mirrors `ts.DiagnosticCategory`. -/
inductive DiagnosticCategory where
  | Warning
  | Error
  | Suggestion
  | Message
deriving DecidableEq

/-- Mirrors the parts of `ts.Diagnostic` the orchestrator inspects:
only the `category` field is ever branched on. -/
structure Diagnostic where
  category : DiagnosticCategory
  message : String
deriving DecidableEq

/-- Mirrors `LocalDiagnosticCollector.hasErrors` /
`diagnostics.some(d => d.category === ts.DiagnosticCategory.Error)`. -/
def hasErrors (diagnostics : List Diagnostic) : Bool :=
  diagnostics.any fun d => decide (d.category = DiagnosticCategory.Error)

/-- Mirrors `interface CompileResultWithAST` (sourceFile, luauAST, diagnostics);
`U` is the source-file type, `IR` the Luau AST type. -/
structure CompileResultWithAST (U IR : Type) where
  sourceFile : U
  luauAST : Option IR
  diagnostics : List Diagnostic
deriving DecidableEq

/-- Mirrors `interface CompileResult` (sourceFile, source, diagnostics). -/
structure CompileResult (U : Type) where
  sourceFile : U
  source : Option String
  diagnostics : List Diagnostic
deriving DecidableEq

/-- The opaque external collaborators consumed by the orchestrator.
`transformSourceFile u` returns the Luau AST together with the diagnostics
subsequently drained from the global `DiagnosticService` sink by
`DiagnosticService.flush()`. -/
structure TransformEnv (U IR : Type) where
  preEmitDiagnostics : U → List Diagnostic
  customPreEmitDiagnostics : U → List Diagnostic
  transformSourceFile : U → IR × List Diagnostic
  renderAST : IR → String
  getOutputPath : U → String

/-- The destination filesystem: a path either holds file content or is absent. -/
abbrev FS := String → Option String

/-- Effect of `fs.outputFile(p, s)` on the modelled filesystem (parent-directory
creation has no counterpart in this flat path map). -/
def updateFS (fs : FS) (p : String) (s : String) : FS :=
  fun q => if q = p then some s else fs q

/-- Mirrors the `ts.EmitResult` shape returned by
`compileAndWriteFilesParallel`: the error-path return carries no
`emittedFiles` field at all, modelled as `none`. -/
structure EmitResult where
  emitSkipped : Bool
  diagnostics : List Diagnostic
  emittedFiles : Option (List String)
deriving DecidableEq

/-- Mirrors `compileSingleFileToAST`: gather pre-emit diagnostics into a fresh
local collector; on error stop with `luauAST = null`; otherwise transform,
drain the global sink, re-check for errors, and return the AST on success. -/
def compileSingleFileToAST {U IR : Type} (env : TransformEnv U IR) (sourceFile : U) :
    CompileResultWithAST U IR :=
  let preDiags := env.preEmitDiagnostics sourceFile ++ env.customPreEmitDiagnostics sourceFile
  if hasErrors preDiags then
    { sourceFile := sourceFile, luauAST := none, diagnostics := preDiags }
  else
    let luauAST := (env.transformSourceFile sourceFile).1
    let transformDiagnostics := (env.transformSourceFile sourceFile).2
    let allDiags := preDiags ++ transformDiagnostics
    if hasErrors allDiags then
      { sourceFile := sourceFile, luauAST := none, diagnostics := allDiags }
    else
      { sourceFile := sourceFile, luauAST := some luauAST, diagnostics := allDiags }

/-- Mirrors Step 1 of `compileFilesParallelPhase2`: the sequential `for` loop
over `sourceFiles` that pushes each result and `break`s right after pushing a
result whose diagnostics contain an Error-severity diagnostic. -/
def transformStage {U IR : Type} (env : TransformEnv U IR) : List U → List (CompileResultWithAST U IR)
  | [] => []
  | sourceFile :: rest =>
    let result := compileSingleFileToAST env sourceFile
    if hasErrors result.diagnostics then [result]
    else result :: transformStage env rest

/-- Mirrors Step 2 of `compileFilesParallelPhase2`: map every AST result to a
`CompileResult`, rendering only when the AST is present and propagating the
diagnostics unchanged. -/
def renderStage {U IR : Type} (env : TransformEnv U IR)
    (astResults : List (CompileResultWithAST U IR)) : List (CompileResult U) :=
  astResults.map fun astResult =>
    match astResult.luauAST with
    | none =>
      { sourceFile := astResult.sourceFile, source := none, diagnostics := astResult.diagnostics }
    | some ast =>
      { sourceFile := astResult.sourceFile
        source := some (env.renderAST ast)
        diagnostics := astResult.diagnostics }

/-- Mirrors `compileFilesParallelPhase2`: sequential transformation followed by
rendering. (The loop's `program.getSourceFile(sourceFiles[i].fileName)` +
`assert` re-fetch returns the unit itself and is elided.) -/
def compileFilesParallelPhase2 {U IR : Type} (env : TransformEnv U IR) (sourceFiles : List U) :
    List (CompileResult U) :=
  renderStage env (transformStage env sourceFiles)

/-- Mirrors the `results.forEach(r => allDiagnostics.push(...r.diagnostics))`
aggregation in `compileAndWriteFilesParallel`. -/
def collectDiagnostics {U : Type} : List (CompileResult U) → List Diagnostic
  | [] => []
  | result :: rest => result.diagnostics ++ collectDiagnostics rest

/-- JavaScript truthiness of `result.source` (`string | null`): the guard
`if (result.source)` is false both for `null` and for the empty string. -/
def truthySource {U : Type} (result : CompileResult U) : Bool :=
  match result.source with
  | none => false
  | some s => !decide (s = "")

/-- Mirrors one write task of the write stage: skip entries whose `source` is
not truthy; compute the output path; write unless `writeOnlyChanged` is set
and the destination already holds byte-identical content (`pathExists` =
the path maps to some content, `readFile` = that content). Returns the
recorded path (`outPath` on write, `null` on skip) and the new filesystem. -/
def writeOne {U : Type} (getOutputPath : U → String) (writeOnlyChanged : Bool) (fs : FS)
    (result : CompileResult U) : Option String × FS :=
  match result.source with
  | some s =>
    if s = "" then (none, fs)
    else
      let outPath := getOutputPath result.sourceFile
      let shouldWrite : Bool :=
        !writeOnlyChanged || !(fs outPath).isSome || fs outPath != some s
      if shouldWrite then (some outPath, updateFS fs outPath s) else (none, fs)
  | none => (none, fs)

/-- One batch of the write stage: `Promise.all(batch.map(writeTask))` followed
by filtering out the `null`s, linearized in array order (each task touches a
distinct destination path under the no-collision invariant). -/
def runWriteTasks {U : Type} (getOutputPath : U → String) (writeOnlyChanged : Bool) (fs : FS) :
    List (CompileResult U) → List String × FS
  | [] => ([], fs)
  | result :: rest =>
    let step := writeOne getOutputPath writeOnlyChanged fs result
    let next := runWriteTasks getOutputPath writeOnlyChanged step.2 rest
    (step.1.toList ++ next.1, next.2)

/-- The outer `for (const batch of batches)` loop: batches strictly in
sequence, accumulating the emitted paths. -/
def runBatches {U : Type} (getOutputPath : U → String) (writeOnlyChanged : Bool) (fs : FS) :
    List (List (CompileResult U)) → List String × FS
  | [] => ([], fs)
  | batch :: rest =>
    let step := runWriteTasks getOutputPath writeOnlyChanged fs batch
    let next := runBatches getOutputPath writeOnlyChanged step.2 rest
    (step.1 ++ next.1, next.2)

/-- Mirrors `const BATCH_SIZE = 50` in `compileAndWriteFilesParallel`. -/
def BATCH_SIZE : Nat := 50

/-- Fuel-indexed helper for the slicing loop
`for (let i = 0; i < results.length; i += BATCH_SIZE) batches.push(results.slice(i, i + BATCH_SIZE))`;
the fuel (initially the list length) bounds the number of iterations, which
for a positive step never exceeds the length. -/
def makeBatchesAux {α : Type} (B : Nat) : Nat → List α → List (List α)
  | 0, _ => []
  | _ + 1, [] => []
  | fuel + 1, x :: xs => (x :: xs).take B :: makeBatchesAux B fuel ((x :: xs).drop B)

/-- The batching loop of the write stage: contiguous slices of at most `B`. -/
def makeBatches {α : Type} (B : Nat) (l : List α) : List (List α) :=
  makeBatchesAux B l.length l

/-- Mirrors `compileAndWriteFilesParallel` (batched variant) from Step 1
onward: transform and render, aggregate diagnostics, return
`emitSkipped: true` with no `emittedFiles` and no writes if any diagnostic
has Error severity, otherwise run the batched write stage and return the
emitted paths. (Step 0, the optional TypeScript plugin pre-pass, is an
excluded external collaborator.) Returns the emit result and the final
filesystem. -/
def compileAndWriteFilesParallel {U IR : Type} (env : TransformEnv U IR)
    (writeOnlyChanged : Bool) (fs : FS) (sourceFiles : List U) : EmitResult × FS :=
  let results := compileFilesParallelPhase2 env sourceFiles
  let allDiagnostics := collectDiagnostics results
  if hasErrors allDiagnostics then
    ({ emitSkipped := true, diagnostics := allDiagnostics, emittedFiles := none }, fs)
  else
    let batches := makeBatches BATCH_SIZE results
    let emitted := runBatches env.getOutputPath writeOnlyChanged fs batches
    ({ emitSkipped := false, diagnostics := allDiagnostics, emittedFiles := some emitted.1 },
      emitted.2)

/-- Mirrors `getCompilationStats` / the `stats` object of the reporting block. -/
structure CompilationStats where
  total : Nat
  successful : Nat
  failed : Nat
  totalDiagnostics : Nat
deriving DecidableEq

/-- Mirrors `getCompilationStats` and the identical `stats` computation in
`compileAndWriteFilesParallel`. -/
def getCompilationStats {U : Type} (results : List (CompileResult U)) : CompilationStats :=
  { total := results.length
    successful := (results.filter fun r => r.source.isSome).length
    failed := (results.filter fun r => r.source.isNone).length
    totalDiagnostics := results.foldl (fun sum r => sum + r.diagnostics.length) 0 }

/-- A JavaScript `number` as far as the reporting block observes it: a finite
value (modelled exactly as a rational) or one of the IEEE non-finite values
produced by division; JS division never raises. -/
inductive JSNumber where
  | finite : ℚ → JSNumber
  | posInf : JSNumber
  | negInf : JSNumber
  | nan : JSNumber
deriving DecidableEq

/-- JavaScript division of two nonnegative numbers: total, with `0/0 = NaN`
and `x/0 = Infinity` for positive `x`. -/
def jsDiv (a b : ℚ) : JSNumber :=
  if b = 0 then
    if a = 0 then JSNumber.nan else if 0 < a then JSNumber.posInf else JSNumber.negInf
  else JSNumber.finite (a / b)

/-- Mirrors the reported per-unit average `totalTime / stats.total`. -/
def averageMsPerFile (totalTime : Nat) (total : Nat) : JSNumber :=
  jsDiv (totalTime : ℚ) (total : ℚ)

/-- Mirrors the reported skip count `stats.successful - emittedFiles.length`. -/
def skippedCount {U : Type} (results : List (CompileResult U)) (emittedFiles : List String) : Nat :=
  (getCompilationStats results).successful - emittedFiles.length

/-! Concrete instantiation used by the closed witness theorems: units and IR
are strings, unit `"b"` makes the transformer report an Error through the
drained sink, everything else transforms cleanly and renders to itself
followed by a newline. -/

/-- An Error-severity diagnostic used by the test environment. -/
def errDiag : Diagnostic := { category := DiagnosticCategory.Error, message := "err" }

/-- A Warning-severity diagnostic used by the test environment. -/
def warnDiag : Diagnostic := { category := DiagnosticCategory.Warning, message := "warn" }

/-- Concrete collaborator environment for the witness theorems. -/
def testEnv : TransformEnv String String :=
  { preEmitDiagnostics := fun _ => []
    customPreEmitDiagnostics := fun u => if u = "c" then [warnDiag] else []
    transformSourceFile := fun u => (u, if u = "b" then [errDiag] else [])
    renderAST := fun ir => ir ++ "!"
    getOutputPath := fun u => u ++ ".lua" }

/-- The empty destination filesystem. -/
def fsEmpty : FS := fun _ => none

/-- A destination filesystem already holding the exact text the run will
produce for unit `"a"`. -/
def fsPreA : FS := fun p => if p = "a.lua" then some "a!" else none

example : transformStage testEnv ["a", "b", "c"] =
    [{ sourceFile := "a", luauAST := some "a", diagnostics := [] },
     { sourceFile := "b", luauAST := none, diagnostics := [errDiag] }] := by decide

example : compileFilesParallelPhase2 testEnv ["a", "c"] =
    [{ sourceFile := "a", source := some "a!", diagnostics := [] },
     { sourceFile := "c", source := some "c!", diagnostics := [warnDiag] }] := by decide

example : (compileAndWriteFilesParallel testEnv true fsEmpty ["a", "c"]).1.emittedFiles =
    some ["a.lua", "c.lua"] := by decide

example : (compileAndWriteFilesParallel testEnv true fsPreA ["a", "c"]).1.emittedFiles =
    some ["c.lua"] := by decide

example : (compileAndWriteFilesParallel testEnv true fsEmpty ["a", "b", "c"]).1 =
    { emitSkipped := true, diagnostics := [errDiag], emittedFiles := none } := by decide

example : makeBatches 2 [1, 2, 3, 4, 5] = [[1, 2], [3, 4], [5]] := by decide

/-! Helper lemmas shared by the claim theorems. -/

lemma compileSingleFileToAST_luauAST_none_iff {U IR : Type} (env : TransformEnv U IR) (u : U) :
    (compileSingleFileToAST env u).luauAST = none ↔
      hasErrors (compileSingleFileToAST env u).diagnostics = true := by
  simp only [compileSingleFileToAST]
  split_ifs with h1 h2
  · simp [h1]
  · simp only [List.append_assoc] at h2
    simp [h2]
  · simp only [List.append_assoc, Bool.not_eq_true] at h2
    simp [h2]

lemma transformStage_cons_ok {U IR : Type} (env : TransformEnv U IR) (u : U) (rest : List U)
    (h : hasErrors (compileSingleFileToAST env u).diagnostics = false) :
    transformStage env (u :: rest) = compileSingleFileToAST env u :: transformStage env rest := by
  simp [transformStage, h]

lemma transformStage_cons_err {U IR : Type} (env : TransformEnv U IR) (u : U) (rest : List U)
    (h : hasErrors (compileSingleFileToAST env u).diagnostics = true) :
    transformStage env (u :: rest) = [compileSingleFileToAST env u] := by
  simp [transformStage, h]

lemma transformStage_all_ok {U IR : Type} (env : TransformEnv U IR) :
    ∀ units : List U,
      (∀ u ∈ units, hasErrors (compileSingleFileToAST env u).diagnostics = false) →
      transformStage env units = units.map (compileSingleFileToAST env) := by
  intro units
  induction units with
  | nil => intro _; rfl
  | cons u rest ih =>
    intro h
    rw [transformStage_cons_ok env u rest (h u (List.mem_cons_self u rest)), List.map_cons,
      ih fun v hv => h v (List.mem_cons_of_mem _ hv)]

lemma transformStage_stops {U IR : Type} (env : TransformEnv U IR) :
    ∀ (units : List U) (k : Nat) (hk : k < units.length),
      hasErrors (compileSingleFileToAST env (units.get ⟨k, hk⟩)).diagnostics = true →
      (∀ j (hj : j < k),
        hasErrors (compileSingleFileToAST env (units.get ⟨j, Nat.lt_trans hj hk⟩)).diagnostics
          = false) →
      transformStage env units = (units.take (k + 1)).map (compileSingleFileToAST env) := by
  intro units
  induction units with
  | nil => intro k hk; simp at hk
  | cons u rest ih =>
    intro k hk herr hprev
    cases k with
    | zero =>
      simp only [List.get] at herr
      rw [transformStage_cons_err env u rest herr]
      simp
    | succ k =>
      have h0 : hasErrors (compileSingleFileToAST env u).diagnostics = false := by
        have := hprev 0 (Nat.succ_pos k)
        simpa using this
      have hk' : k < rest.length := Nat.lt_of_succ_lt_succ hk
      rw [transformStage_cons_ok env u rest h0, List.take_succ_cons, List.map_cons,
        ih k hk' (by simpa using herr)
          (fun j hj => by simpa using hprev (j + 1) (Nat.succ_lt_succ hj))]

lemma transformStage_mem {U IR : Type} (env : TransformEnv U IR) :
    ∀ (units : List U) (a : CompileResultWithAST U IR), a ∈ transformStage env units →
      ∃ u ∈ units, a = compileSingleFileToAST env u := by
  intro units
  induction units with
  | nil => intro a ha; simp [transformStage] at ha
  | cons u rest ih =>
    intro a ha
    by_cases h : hasErrors (compileSingleFileToAST env u).diagnostics = true
    · rw [transformStage_cons_err env u rest h] at ha
      simp at ha
      exact ⟨u, List.mem_cons_self u rest, ha⟩
    · rw [transformStage_cons_ok env u rest (by simpa using h)] at ha
      rcases List.mem_cons.mp ha with rfl | ha
      · exact ⟨u, List.mem_cons_self u rest, rfl⟩
      · rcases ih a ha with ⟨v, hv, rfl⟩
        exact ⟨v, List.mem_cons_of_mem _ hv, rfl⟩

lemma renderStage_map_eq {U IR : Type} (env : TransformEnv U IR)
    (astResults : List (CompileResultWithAST U IR)) :
    renderStage env astResults = astResults.map fun a =>
      { sourceFile := a.sourceFile
        source := a.luauAST.map env.renderAST
        diagnostics := a.diagnostics } := by
  unfold renderStage
  refine List.map_congr_left fun a _ => ?_
  cases h : a.luauAST <;> simp [h]

lemma truthySource_eq_true_iff {U : Type} (r : CompileResult U) :
    truthySource r = true ↔ ∃ s, r.source = some s ∧ s ≠ "" := by
  unfold truthySource
  cases h : r.source with
  | none => simp
  | some s => simp [h]

lemma writeOne_not_truthy {U : Type} (getOutputPath : U → String) (writeOnlyChanged : Bool)
    (fs : FS) (r : CompileResult U) (h : truthySource r = false) :
    writeOne getOutputPath writeOnlyChanged fs r = (none, fs) := by
  unfold writeOne
  unfold truthySource at h
  cases hs : r.source with
  | none => rfl
  | some s =>
    rw [hs] at h
    simp at h
    simp [h]

lemma writeOne_skip {U : Type} (getOutputPath : U → String) (fs : FS) (r : CompileResult U)
    (s : String) (hs : r.source = some s) (hne : s ≠ "")
    (heq : fs (getOutputPath r.sourceFile) = some s) :
    writeOne getOutputPath true fs r = (none, fs) := by
  unfold writeOne
  rw [hs]
  simp [hne, heq]

lemma writeOne_write {U : Type} (getOutputPath : U → String) (writeOnlyChanged : Bool) (fs : FS)
    (r : CompileResult U) (s : String) (hs : r.source = some s) (hne : s ≠ "")
    (hw : writeOnlyChanged = false ∨ fs (getOutputPath r.sourceFile) ≠ some s) :
    writeOne getOutputPath writeOnlyChanged fs r =
      (some (getOutputPath r.sourceFile), updateFS fs (getOutputPath r.sourceFile) s) := by
  unfold writeOne
  rw [hs]
  rcases hw with hw | hw
  · subst hw
    simp [hne]
  · cases hfs : fs (getOutputPath r.sourceFile) with
    | none => simp [hne, hfs]
    | some c =>
      have hcs : c ≠ s := fun h => hw (by rw [hfs, h])
      simp [hne, hfs, hcs]

lemma writeOne_fs_char {U : Type} (getOutputPath : U → String) (writeOnlyChanged : Bool) (fs : FS)
    (r : CompileResult U) (q : String) :
    (writeOne getOutputPath writeOnlyChanged fs r).2 q = fs q ∨
      (truthySource r = true ∧ getOutputPath r.sourceFile = q ∧
        (writeOne getOutputPath writeOnlyChanged fs r).2 q = r.source) := by
  unfold writeOne
  cases hs : r.source with
  | none => exact Or.inl rfl
  | some s =>
    by_cases hse : s = ""
    · subst hse
      simp
    · simp only [if_neg hse]
      by_cases hsw : (!writeOnlyChanged || !(fs (getOutputPath r.sourceFile)).isSome ||
          fs (getOutputPath r.sourceFile) != some s) = true
      · simp only [hsw, if_pos]
        by_cases hq : q = getOutputPath r.sourceFile
        · subst hq
          refine Or.inr ⟨?_, rfl, ?_⟩
          · simp [truthySource, hs, hse]
          · simp [updateFS]
        · exact Or.inl (by simp [updateFS, hq])
      · refine Or.inl ?_
        rw [if_neg hsw]

lemma runWriteTasks_append {U : Type} (getOutputPath : U → String) (writeOnlyChanged : Bool) :
    ∀ (l1 l2 : List (CompileResult U)) (fs : FS),
      runWriteTasks getOutputPath writeOnlyChanged fs (l1 ++ l2) =
        ((runWriteTasks getOutputPath writeOnlyChanged fs l1).1 ++
            (runWriteTasks getOutputPath writeOnlyChanged
              (runWriteTasks getOutputPath writeOnlyChanged fs l1).2 l2).1,
          (runWriteTasks getOutputPath writeOnlyChanged
            (runWriteTasks getOutputPath writeOnlyChanged fs l1).2 l2).2) := by
  intro l1
  induction l1 with
  | nil => intro l2 fs; simp [runWriteTasks]
  | cons r rest ih =>
    intro l2 fs
    simp [runWriteTasks, ih]

lemma runBatches_flatten {U : Type} (getOutputPath : U → String) (writeOnlyChanged : Bool) :
    ∀ (bs : List (List (CompileResult U))) (fs : FS),
      runBatches getOutputPath writeOnlyChanged fs bs =
        runWriteTasks getOutputPath writeOnlyChanged fs bs.flatten := by
  intro bs
  induction bs with
  | nil => intro fs; simp [runBatches, runWriteTasks]
  | cons b rest ih =>
    intro fs
    simp [runBatches, List.flatten, runWriteTasks_append, ih]

lemma makeBatchesAux_flatten {α : Type} (B : Nat) (hB : 1 ≤ B) :
    ∀ (fuel : Nat) (l : List α), l.length ≤ fuel → (makeBatchesAux B fuel l).flatten = l := by
  intro fuel
  induction fuel with
  | zero =>
    intro l hl
    rw [List.length_eq_zero.mp (Nat.le_zero.mp hl)]
    rfl
  | succ fuel ih =>
    intro l hl
    cases l with
    | nil => rfl
    | cons x xs =>
      simp only [makeBatchesAux, List.flatten_cons]
      rw [ih ((x :: xs).drop B) (by rw [List.length_drop]; omega)]
      exact List.take_append_drop B (x :: xs)

lemma makeBatchesAux_sizes {α : Type} (B : Nat) :
    ∀ (fuel : Nat) (l : List α) (b : List α), b ∈ makeBatchesAux B fuel l → b.length ≤ B := by
  intro fuel
  induction fuel with
  | zero => intro l b hb; simp [makeBatchesAux] at hb
  | succ fuel ih =>
    intro l b hb
    cases l with
    | nil => simp [makeBatchesAux] at hb
    | cons x xs =>
      simp only [makeBatchesAux, List.mem_cons] at hb
      rcases hb with rfl | hb
      · rw [List.length_take]
        exact min_le_left _ _
      · exact ih _ _ hb

lemma makeBatches_flatten {α : Type} (B : Nat) (hB : 1 ≤ B) (l : List α) :
    (makeBatches B l).flatten = l :=
  makeBatchesAux_flatten B hB l.length l le_rfl

lemma makeBatches_sizes {α : Type} (B : Nat) (l : List α) (b : List α)
    (hb : b ∈ makeBatches B l) : b.length ≤ B :=
  makeBatchesAux_sizes B l.length l b hb

lemma runWriteTasks_length_eq {U : Type} (getOutputPath : U → String) (fsInit : FS) :
    ∀ (es : List (CompileResult U)) (fs0 : FS),
      (∀ r ∈ es, truthySource r = true →
        fs0 (getOutputPath r.sourceFile) = fsInit (getOutputPath r.sourceFile)) →
      List.Pairwise (fun a b => truthySource a = true → truthySource b = true →
        getOutputPath a.sourceFile ≠ getOutputPath b.sourceFile) es →
      (runWriteTasks getOutputPath true fs0 es).1.length =
        es.countP fun r =>
          truthySource r && (fsInit (getOutputPath r.sourceFile) != r.source) := by
  intro es
  induction es with
  | nil => intro fs0 _ _; simp [runWriteTasks]
  | cons r rest ih =>
    intro fs0 hagree hpw
    rcases List.pairwise_cons.mp hpw with ⟨hhead, htail⟩
    have hfs0 : truthySource r = true →
        fs0 (getOutputPath r.sourceFile) = fsInit (getOutputPath r.sourceFile) :=
      hagree r (List.mem_cons_self r rest)
    by_cases htr : truthySource r = true
    · obtain ⟨s, hs, hne⟩ := (truthySource_eq_true_iff r).mp htr
      by_cases hw : fsInit (getOutputPath r.sourceFile) = some s
      · have heq : fs0 (getOutputPath r.sourceFile) = some s := by rw [hfs0 htr, hw]
        simp only [runWriteTasks, writeOne_skip getOutputPath fs0 r s hs hne heq,
          Option.toList_none, List.nil_append, List.countP_cons]
        rw [ih fs0 (fun v hv => hagree v (List.mem_cons_of_mem _ hv)) htail]
        have hpr : (truthySource r &&
            (fsInit (getOutputPath r.sourceFile) != r.source)) = false := by
          rw [hs, hw]
          simp
        rw [hpr]
        simp
      · have hne0 : fs0 (getOutputPath r.sourceFile) ≠ some s := by
          rw [hfs0 htr]; exact hw
        simp only [runWriteTasks,
          writeOne_write getOutputPath true fs0 r s hs hne (Or.inr hne0),
          Option.toList_some, List.singleton_append, List.length_cons, List.countP_cons]
        rw [ih (updateFS fs0 (getOutputPath r.sourceFile) s) ?_ htail]
        · have hpr : (truthySource r &&
              (fsInit (getOutputPath r.sourceFile) != r.source)) = true := by
            rw [hs, htr]
            simp [bne_iff_ne, hw]
          rw [hpr]
          simp [Nat.add_comm]
        · intro v hv htv
          have hvne : getOutputPath r.sourceFile ≠ getOutputPath v.sourceFile :=
            hhead v hv htr htv
          rw [updateFS, if_neg (fun h => hvne h.symm)]
          exact hagree v (List.mem_cons_of_mem _ hv) htv
    · have htr0 : truthySource r = false := by simpa using htr
      simp only [runWriteTasks, writeOne_not_truthy getOutputPath true fs0 r htr0,
        Option.toList_none, List.nil_append, List.countP_cons, htr0, Bool.false_and,
        if_neg Bool.false_ne_true, Nat.add_zero]
      exact ih fs0 (fun v hv => hagree v (List.mem_cons_of_mem _ hv)) htail

lemma runWriteTasks_length_le {U : Type} (getOutputPath : U → String) (writeOnlyChanged : Bool) :
    ∀ (es : List (CompileResult U)) (fs : FS),
      (runWriteTasks getOutputPath writeOnlyChanged fs es).1.length ≤
        es.countP fun r => truthySource r := by
  intro es
  induction es with
  | nil => intro fs; simp [runWriteTasks]
  | cons r rest ih =>
    intro fs
    simp only [runWriteTasks, List.length_append, List.countP_cons]
    by_cases htr : truthySource r = true
    · have h1 : (writeOne getOutputPath writeOnlyChanged fs r).1.toList.length ≤ 1 := by
        cases (writeOne getOutputPath writeOnlyChanged fs r).1 <;> simp
      have h2 := ih (writeOne getOutputPath writeOnlyChanged fs r).2
      have hif : (if truthySource r = true then 1 else 0) = 1 := by simp [htr]
      rw [hif]
      omega
    · have htr0 : truthySource r = false := by simpa using htr
      rw [writeOne_not_truthy getOutputPath writeOnlyChanged fs r htr0, htr0]
      simp only [Option.toList_none, List.length_nil, Nat.zero_add,
        if_neg Bool.false_ne_true, Nat.add_zero]
      exact ih fs

lemma countP_truthy_le_successful {U : Type} (results : List (CompileResult U)) :
    (results.countP fun r => truthySource r) ≤ (getCompilationStats results).successful := by
  simp only [getCompilationStats, ← List.countP_eq_length_filter]
  refine List.countP_mono_left fun r _ h => ?_
  rcases (truthySource_eq_true_iff r).mp h with ⟨s, hs, _⟩
  simp [hs]

lemma runWriteTasks_fs_char {U : Type} (getOutputPath : U → String) (writeOnlyChanged : Bool) :
    ∀ (es : List (CompileResult U)) (fs : FS) (p : String),
      (runWriteTasks getOutputPath writeOnlyChanged fs es).2 p = fs p ∨
        ∃ r ∈ es, truthySource r = true ∧ getOutputPath r.sourceFile = p ∧
          (runWriteTasks getOutputPath writeOnlyChanged fs es).2 p = r.source := by
  intro es
  induction es with
  | nil => intro fs p; exact Or.inl rfl
  | cons r rest ih =>
    intro fs p
    simp only [runWriteTasks]
    rcases ih (writeOne getOutputPath writeOnlyChanged fs r).2 p with hrest | ⟨v, hv, hvt, hvp, hveq⟩
    · rcases writeOne_fs_char getOutputPath writeOnlyChanged fs r p with hone | ⟨hrt, hrp, hreq⟩
      · exact Or.inl (by rw [hrest, hone])
      · exact Or.inr ⟨r, List.mem_cons_self r rest, hrt, hrp, by rw [hrest, hreq]⟩
    · exact Or.inr ⟨v, List.mem_cons_of_mem _ hv, hvt, hvp, hveq⟩

lemma runWriteTasks_final {U : Type} (getOutputPath : U → String) :
    ∀ (es : List (CompileResult U)) (fs : FS),
      List.Pairwise (fun a b => truthySource a = true → truthySource b = true →
        getOutputPath a.sourceFile = getOutputPath b.sourceFile → a.source = b.source) es →
      ∀ r ∈ es, truthySource r = true →
        (runWriteTasks getOutputPath true fs es).2 (getOutputPath r.sourceFile) = r.source := by
  intro es
  induction es with
  | nil => intro fs _ r hr; simp at hr
  | cons r0 rest ih =>
    intro fs hpw r hr htr
    rcases List.pairwise_cons.mp hpw with ⟨hhead, htail⟩
    rcases List.mem_cons.mp hr with rfl | hr
    · obtain ⟨s, hs, hne⟩ := (truthySource_eq_true_iff r).mp htr
      have hout : (writeOne getOutputPath true fs r).2 (getOutputPath r.sourceFile) = r.source := by
        by_cases heq : fs (getOutputPath r.sourceFile) = some s
        · rw [writeOne_skip getOutputPath fs r s hs hne heq]
          exact heq.trans hs.symm
        · rw [writeOne_write getOutputPath true fs r s hs hne (Or.inr heq), hs]
          simp [updateFS]
      simp only [runWriteTasks]
      rcases runWriteTasks_fs_char getOutputPath true rest
          (writeOne getOutputPath true fs r).2 (getOutputPath r.sourceFile) with hkeep |
          ⟨v, hv, hvt, hvp, hveq⟩
      · rw [hkeep, hout]
      · have := hhead v hv htr hvt hvp.symm
        rw [hveq, ← this]
    · exact ih (writeOne getOutputPath true fs r0).2 htail r hr htr

lemma runWriteTasks_noop {U : Type} (getOutputPath : U → String) :
    ∀ (es : List (CompileResult U)) (fs : FS),
      (∀ r ∈ es, truthySource r = true → fs (getOutputPath r.sourceFile) = r.source) →
      runWriteTasks getOutputPath true fs es = ([], fs) := by
  intro es
  induction es with
  | nil => intro fs _; rfl
  | cons r rest ih =>
    intro fs h
    by_cases htr : truthySource r = true
    · obtain ⟨s, hs, hne⟩ := (truthySource_eq_true_iff r).mp htr
      have heq : fs (getOutputPath r.sourceFile) = some s := by
        rw [h r (List.mem_cons_self r rest) htr, hs]
      simp only [runWriteTasks, writeOne_skip getOutputPath fs r s hs hne heq,
        Option.toList_none, List.nil_append]
      rw [ih fs fun v hv => h v (List.mem_cons_of_mem _ hv)]
    · have htr0 : truthySource r = false := by simpa using htr
      simp only [runWriteTasks, writeOne_not_truthy getOutputPath true fs r htr0,
        Option.toList_none, List.nil_append]
      rw [ih fs fun v hv => h v (List.mem_cons_of_mem _ hv)]

/-! Claim theorems. -/

/-- C8: for the empty unit sequence, the orchestrator's run returns
`emitSkipped: false` (emitted true), an empty diagnostics sequence and an
empty emitted-files sequence, leaves the filesystem untouched, and raises no
error. -/
theorem emptyRun_succeeds {U IR : Type} (env : TransformEnv U IR) (writeOnlyChanged : Bool)
    (fs : FS) :
    compileAndWriteFilesParallel env writeOnlyChanged fs [] =
      ({ emitSkipped := false, diagnostics := [], emittedFiles := some [] }, fs) := rfl

/-- C9: the run reporter tolerates a total unit count of zero: for the empty
result list the per-unit average `totalTime / stats.total` is a defined
JavaScript number (NaN or Infinity, never a division-by-zero fault), so the
reporting step is well-defined for an empty run. -/
theorem emptyRun_average_wellDefined (totalTime : Nat) :
    (getCompilationStats ([] : List (CompileResult String))).total = 0 ∧
      averageMsPerFile totalTime (getCompilationStats ([] : List (CompileResult String))).total =
        (if totalTime = 0 then JSNumber.nan else JSNumber.posInf) := by
  refine ⟨rfl, ?_⟩
  show jsDiv (totalTime : ℚ) ((0 : Nat) : ℚ) = _
  by_cases ht : totalTime = 0
  · simp [jsDiv, ht]
  · have hpos : (0 : ℚ) < (totalTime : ℚ) := by
      exact_mod_cast Nat.pos_of_ne_zero ht
    have hcast : ((totalTime : ℚ) = 0) = False := by
      simp [Nat.cast_eq_zero, ht]
    simp [jsDiv, hcast, hpos, ht]

/-- C7: the render stage produces a rendered-result sequence of the same
length with entry `i` corresponding to input entry `i`: an entry with absent
IR yields absent text with the diagnostics propagated unchanged
(independently of the renderer), an entry with present IR yields the
renderer's output text with the diagnostics unchanged. -/
theorem renderStage_correspondence {U IR : Type} (env : TransformEnv U IR)
    (astResults : List (CompileResultWithAST U IR)) :
    (renderStage env astResults).length = astResults.length ∧
      ∀ i : Nat, (renderStage env astResults)[i]? = (astResults[i]?).map fun a =>
        { sourceFile := a.sourceFile
          source := a.luauAST.map env.renderAST
          diagnostics := a.diagnostics } := by
  rw [renderStage_map_eq]
  exact ⟨List.length_map _ _, fun i => List.getElem?_map ..⟩

/-- C2: a run whose aggregated diagnostics contain an Error-severity
diagnostic reports `emitSkipped: true`, carries no `emittedFiles`, and
performs no write (the filesystem is returned unchanged), even when some
units rendered successfully before the failing one. -/
theorem failedRun_withholdsEmit {U IR : Type} (env : TransformEnv U IR)
    (writeOnlyChanged : Bool) (fs : FS) (sourceFiles : List U)
    (h : hasErrors (collectDiagnostics (compileFilesParallelPhase2 env sourceFiles)) = true) :
    compileAndWriteFilesParallel env writeOnlyChanged fs sourceFiles =
      ({ emitSkipped := true
         diagnostics := collectDiagnostics (compileFilesParallelPhase2 env sourceFiles)
         emittedFiles := none }, fs) := by
  simp only [compileAndWriteFilesParallel]
  rw [if_pos h]

/-- C2 witness: with unit `"b"` failing after `"a"` rendered, the run reports
`emitSkipped: true`, no emitted files, and an unchanged filesystem. -/
theorem failedRun_withholdsEmit_witness :
    hasErrors (collectDiagnostics (compileFilesParallelPhase2 testEnv ["a", "b", "c"])) = true ∧
      compileAndWriteFilesParallel testEnv true fsEmpty ["a", "b", "c"] =
        ({ emitSkipped := true, diagnostics := [errDiag], emittedFiles := none }, fsEmpty) := by
  refine ⟨by decide, ?_⟩
  rw [failedRun_withholdsEmit testEnv true fsEmpty ["a", "b", "c"] (by decide)]
  have hd : collectDiagnostics (compileFilesParallelPhase2 testEnv ["a", "b", "c"]) =
      [errDiag] := by decide
  rw [hd]

/-- C10: every result returned by the transform/render pipeline has its
source absent exactly when its diagnostics contain an Error-severity
diagnostic; in particular every result carrying rendered text has no
Error-severity diagnostic. -/
theorem phase2_source_none_iff_error {U IR : Type} (env : TransformEnv U IR)
    (sourceFiles : List U) (r : CompileResult U)
    (h : r ∈ compileFilesParallelPhase2 env sourceFiles) :
    (r.source = none ↔ hasErrors r.diagnostics = true) ∧
      ∀ s, r.source = some s → hasErrors r.diagnostics = false := by
  unfold compileFilesParallelPhase2 at h
  rw [renderStage_map_eq] at h
  rcases List.mem_map.mp h with ⟨a, ha, rfl⟩
  rcases transformStage_mem env sourceFiles a ha with ⟨u, _, rfl⟩
  have hiff : ((compileSingleFileToAST env u).luauAST.map env.renderAST = none ↔
      hasErrors (compileSingleFileToAST env u).diagnostics = true) := by
    rw [Option.map_eq_none']
    exact compileSingleFileToAST_luauAST_none_iff env u
  refine ⟨hiff, fun s hs => ?_⟩
  have hne : (compileSingleFileToAST env u).luauAST.map env.renderAST ≠ none := by
    intro hnone
    exact Option.noConfusion (hs.symm.trans hnone)
  have := fun he => hne (hiff.mpr he)
  simpa using this

/-- C10 witness: the failing unit `"b"` yields a member of the pipeline
output with source absent and an Error diagnostic, satisfying the invariant. -/
theorem phase2_source_none_iff_error_witness :
    (({ sourceFile := "b", source := none, diagnostics := [errDiag] } : CompileResult String) ∈
        compileFilesParallelPhase2 testEnv ["a", "b"]) ∧
      ((({ sourceFile := "b", source := none, diagnostics := [errDiag] } :
            CompileResult String).source = none ↔
          hasErrors ({ sourceFile := "b", source := none, diagnostics := [errDiag] } :
            CompileResult String).diagnostics = true) ∧
        ∀ s, ({ sourceFile := "b", source := none, diagnostics := [errDiag] } :
            CompileResult String).source = some s →
          hasErrors ({ sourceFile := "b", source := none, diagnostics := [errDiag] } :
            CompileResult String).diagnostics = false) :=
  ⟨by decide, phase2_source_none_iff_error testEnv ["a", "b"] _ (by decide)⟩

/-- C6: the write stage's batching partitions the result sequence into
contiguous batches of at most `B` (the source's constant `BATCH_SIZE = 50`),
every entry belongs to exactly one batch (flattening the batches restores
the sequence, so running the batches equals running the entries directly and
nothing is dropped at a batch boundary), and with batch size 2 and 5 entries
exactly 3 batches of sizes 2, 2, 1 are formed covering all 5 entries. -/
theorem writeBatches_partition :
    (∀ (U : Type) (B : Nat) (results : List (CompileResult U)), 1 ≤ B →
      (makeBatches B results).flatten = results ∧
        ∀ b ∈ makeBatches B results, b.length ≤ B) ∧
    (∀ (U : Type) (getOutputPath : U → String) (writeOnlyChanged : Bool) (fs : FS)
        (results : List (CompileResult U)),
      runBatches getOutputPath writeOnlyChanged fs (makeBatches BATCH_SIZE results) =
        runWriteTasks getOutputPath writeOnlyChanged fs results) ∧
    (∀ r1 r2 r3 r4 r5 : CompileResult String,
      (makeBatches 2 [r1, r2, r3, r4, r5]).map List.length = [2, 2, 1] ∧
        (makeBatches 2 [r1, r2, r3, r4, r5]).flatten = [r1, r2, r3, r4, r5]) := by
  refine ⟨fun U B results hB =>
      ⟨makeBatches_flatten B hB results, fun b hb => makeBatches_sizes B results b hb⟩,
    fun U getOutputPath writeOnlyChanged fs results => ?_,
    fun r1 r2 r3 r4 r5 => ⟨rfl, rfl⟩⟩
  rw [runBatches_flatten, makeBatches_flatten BATCH_SIZE (by decide) results]

/-- C6 witness: the partition facts instantiated at batch size 2 on the
pipeline output for two clean units. -/
theorem writeBatches_partition_witness :
    (1 : Nat) ≤ 2 ∧
      ((makeBatches 2 (compileFilesParallelPhase2 testEnv ["a", "c"])).flatten =
          compileFilesParallelPhase2 testEnv ["a", "c"] ∧
        ∀ b ∈ makeBatches 2 (compileFilesParallelPhase2 testEnv ["a", "c"]), b.length ≤ 2) :=
  ⟨by decide,
    writeBatches_partition.1 String 2 (compileFilesParallelPhase2 testEnv ["a", "c"]) (by decide)⟩

/-- C1: the transform stage processes units strictly in input order and its
output is a prefix of the input: with no erroring unit it produces one result
per unit (the full sequence, in order); otherwise the first erroring unit is
the last result produced, its IR is absent, and no later unit is attempted
(no result — hence no diagnostic — exists for any later unit). -/
theorem transformStage_failFast {U IR : Type} (env : TransformEnv U IR) (units : List U) :
    ((∀ u ∈ units, hasErrors (compileSingleFileToAST env u).diagnostics = false) →
      transformStage env units = units.map (compileSingleFileToAST env)) ∧
    (∀ k (hk : k < units.length),
      hasErrors (compileSingleFileToAST env (units.get ⟨k, hk⟩)).diagnostics = true →
      (∀ j (hj : j < k),
        hasErrors (compileSingleFileToAST env
          (units.get ⟨j, Nat.lt_trans hj hk⟩)).diagnostics = false) →
      transformStage env units = (units.take (k + 1)).map (compileSingleFileToAST env) ∧
        (compileSingleFileToAST env (units.get ⟨k, hk⟩)).luauAST = none ∧
        (transformStage env units).length = k + 1) := by
  refine ⟨transformStage_all_ok env units, ?_⟩
  intro k hk herr hprev
  have hstop := transformStage_stops env units k hk herr hprev
  refine ⟨hstop, (compileSingleFileToAST_luauAST_none_iff env _).mpr herr, ?_⟩
  rw [hstop, List.length_map, List.length_take]
  omega

/-- C1 witness: on `["a", "b", "c"]` with `"b"` erroring, the output is the
two-element mapped sequence ending at `"b"` with its AST absent; `"c"` is
never attempted. -/
theorem transformStage_failFast_witness :
    transformStage testEnv ["a", "b", "c"] =
        (List.take 2 ["a", "b", "c"]).map (compileSingleFileToAST testEnv) ∧
      (compileSingleFileToAST testEnv "b").luauAST = none ∧
      (transformStage testEnv ["a", "b", "c"]).length = 2 := by
  have h := (transformStage_failFast testEnv ["a", "b", "c"]).2 1 (by decide) (by decide)
    (fun j hj => by
      have hj0 : j = 0 := Nat.lt_one_iff.mp hj
      subst hj0
      show hasErrors (compileSingleFileToAST testEnv "a").diagnostics = false
      decide)
  exact ⟨h.1, h.2.1, h.2.2⟩

/-- A rendered result whose text is present but empty, used to exhibit the
JavaScript-truthiness behavior of the write stage. -/
def emptySourceResult : CompileResult String :=
  { sourceFile := "empty", source := some "", diagnostics := [] }

/-- C3 counterexample: a write-stage entry with text present (the empty
string), write-only-if-changed unset, and an absent destination is neither
persisted nor recorded — `if (result.source)` is false for the empty string
— contradicting the claim that such an entry is persisted and recorded. -/
theorem writeOne_emptyText_counterexample :
    emptySourceResult.source.isSome = true ∧
      writeOne testEnv.getOutputPath false fsEmpty emptySourceResult = (none, fsEmpty) ∧
      fsEmpty (testEnv.getOutputPath emptySourceResult.sourceFile) = none :=
  ⟨rfl, rfl, rfl⟩

/-- C3 as amended: for every write-stage entry whose text is present and
nonempty, if write-only-if-changed is set and the destination holds
byte-identical content the write is skipped and nothing is recorded;
otherwise (flag unset, destination absent, or content differing) the text is
persisted to the destination and the destination path is recorded. -/
theorem writeOne_changedOnly {U : Type} (getOutputPath : U → String) (writeOnlyChanged : Bool)
    (fs : FS) (r : CompileResult U) (s : String) (hs : r.source = some s) (hne : s ≠ "") :
    (writeOnlyChanged = true → fs (getOutputPath r.sourceFile) = some s →
      writeOne getOutputPath writeOnlyChanged fs r = (none, fs)) ∧
    ((writeOnlyChanged = false ∨ fs (getOutputPath r.sourceFile) ≠ some s) →
      writeOne getOutputPath writeOnlyChanged fs r =
        (some (getOutputPath r.sourceFile), updateFS fs (getOutputPath r.sourceFile) s)) ∧
    updateFS fs (getOutputPath r.sourceFile) s (getOutputPath r.sourceFile) = some s := by
  refine ⟨?_, writeOne_write getOutputPath writeOnlyChanged fs r s hs hne, by simp [updateFS]⟩
  intro hw heq
  subst hw
  exact writeOne_skip getOutputPath fs r s hs hne heq

/-- A successfully rendered result for unit `"a"` under `testEnv`. -/
def aResult : CompileResult String :=
  { sourceFile := "a", source := some "a!", diagnostics := [] }

/-- C3 witness: the amended per-entry behavior instantiated at the rendered
result for `"a"` against a destination already holding identical content. -/
theorem writeOne_changedOnly_witness :
    aResult.source = some "a!" ∧ "a!" ≠ "" ∧
      ((true = true → fsPreA (testEnv.getOutputPath aResult.sourceFile) = some "a!" →
        writeOne testEnv.getOutputPath true fsPreA aResult = (none, fsPreA)) ∧
      ((true = false ∨ fsPreA (testEnv.getOutputPath aResult.sourceFile) ≠ some "a!") →
        writeOne testEnv.getOutputPath true fsPreA aResult =
          (some (testEnv.getOutputPath aResult.sourceFile),
            updateFS fsPreA (testEnv.getOutputPath aResult.sourceFile) "a!")) ∧
      updateFS fsPreA (testEnv.getOutputPath aResult.sourceFile) "a!"
        (testEnv.getOutputPath aResult.sourceFile) = some "a!") :=
  ⟨rfl, by decide,
    writeOne_changedOnly testEnv.getOutputPath true fsPreA aResult "a!" rfl (by decide)⟩

/-- C4 counterexample: with write-only-if-changed unset and a destination
already holding identical content, the run writes the file anyway, so
`writtenPaths` has length 1 while the number of units whose destination
content differs (or is absent) is 0 — the claim omits the flag. -/
theorem writeCount_counterexample :
    (compileAndWriteFilesParallel testEnv false fsPreA ["a"]).1.emittedFiles = some ["a.lua"] ∧
      ((compileFilesParallelPhase2 testEnv ["a"]).countP fun r =>
        fsPreA (testEnv.getOutputPath r.sourceFile) != r.source) = 0 := by decide

/-- C4 as amended: with write-only-if-changed set, no Error-severity
diagnostic, pairwise-distinct destination paths (the no-collision invariant
the path mapping must guarantee), `writtenPaths` length equals the number of
units with nonempty rendered text whose destination content differs from (or
is absent before) the run's new text, and the reported skip count plus the
written count equals the number of successfully rendered units. -/
theorem writeCount_changedFiles {U IR : Type} (env : TransformEnv U IR) (fs : FS)
    (sourceFiles : List U)
    (hnoerr : hasErrors (collectDiagnostics (compileFilesParallelPhase2 env sourceFiles)) = false)
    (hdist : List.Pairwise (fun a b => truthySource a = true → truthySource b = true →
      env.getOutputPath a.sourceFile ≠ env.getOutputPath b.sourceFile)
      (compileFilesParallelPhase2 env sourceFiles)) :
    ∃ emitted,
      (compileAndWriteFilesParallel env true fs sourceFiles).1.emittedFiles = some emitted ∧
        emitted.length = (compileFilesParallelPhase2 env sourceFiles).countP
          (fun r => truthySource r && (fs (env.getOutputPath r.sourceFile) != r.source)) ∧
        skippedCount (compileFilesParallelPhase2 env sourceFiles) emitted + emitted.length =
          (getCompilationStats (compileFilesParallelPhase2 env sourceFiles)).successful := by
  simp only [compileAndWriteFilesParallel]
  rw [if_neg (by simp [hnoerr])]
  refine ⟨_, rfl, ?_, ?_⟩
  · rw [runBatches_flatten, makeBatches_flatten BATCH_SIZE (by decide) _]
    exact runWriteTasks_length_eq env.getOutputPath fs
      (compileFilesParallelPhase2 env sourceFiles) fs (fun _ _ _ => rfl) hdist
  · have hle : (runBatches env.getOutputPath true fs
        (makeBatches BATCH_SIZE (compileFilesParallelPhase2 env sourceFiles))).1.length ≤
        (getCompilationStats (compileFilesParallelPhase2 env sourceFiles)).successful := by
      rw [runBatches_flatten, makeBatches_flatten BATCH_SIZE (by decide) _]
      exact le_trans
        (runWriteTasks_length_le env.getOutputPath true
          (compileFilesParallelPhase2 env sourceFiles) fs)
        (countP_truthy_le_successful (compileFilesParallelPhase2 env sourceFiles))
    unfold skippedCount
    omega

/-- C4 witness: units `["a", "c"]` against a filesystem already holding
`"a"`'s output — exactly one write (`"c"`), one skip, two successes. -/
theorem writeCount_changedFiles_witness :
    hasErrors (collectDiagnostics (compileFilesParallelPhase2 testEnv ["a", "c"])) = false ∧
      ∃ emitted,
        (compileAndWriteFilesParallel testEnv true fsPreA ["a", "c"]).1.emittedFiles =
            some emitted ∧
          emitted.length = (compileFilesParallelPhase2 testEnv ["a", "c"]).countP
            (fun r => truthySource r &&
              (fsPreA (testEnv.getOutputPath r.sourceFile) != r.source)) ∧
          skippedCount (compileFilesParallelPhase2 testEnv ["a", "c"]) emitted + emitted.length =
            (getCompilationStats (compileFilesParallelPhase2 testEnv ["a", "c"])).successful :=
  ⟨by decide, writeCount_changedFiles testEnv fsPreA ["a", "c"] (by decide) (by decide)⟩

/-- C5: with write-only-if-changed set, no Error-severity diagnostic, and
destination paths consistent across units (equal paths carry equal text —
guaranteed by the no-collision invariant of the path mapping), a second run
in immediate succession with unchanged inputs and no external modification
performs zero writes: every eligible destination is skipped as
byte-identical, and the filesystem is unchanged by the second run. -/
theorem writeStage_idempotent {U IR : Type} (env : TransformEnv U IR) (fs : FS)
    (sourceFiles : List U)
    (hnoerr : hasErrors (collectDiagnostics (compileFilesParallelPhase2 env sourceFiles)) = false)
    (hcompat : List.Pairwise (fun a b => truthySource a = true → truthySource b = true →
      env.getOutputPath a.sourceFile = env.getOutputPath b.sourceFile → a.source = b.source)
      (compileFilesParallelPhase2 env sourceFiles)) :
    (compileAndWriteFilesParallel env true
        (compileAndWriteFilesParallel env true fs sourceFiles).2 sourceFiles).1.emittedFiles =
      some [] ∧
    (compileAndWriteFilesParallel env true
        (compileAndWriteFilesParallel env true fs sourceFiles).2 sourceFiles).2 =
      (compileAndWriteFilesParallel env true fs sourceFiles).2 := by
  have hcond : ¬ (hasErrors (collectDiagnostics (compileFilesParallelPhase2 env sourceFiles))
      = true) := by simp [hnoerr]
  have hfs1 : (compileAndWriteFilesParallel env true fs sourceFiles).2 =
      (runWriteTasks env.getOutputPath true fs (compileFilesParallelPhase2 env sourceFiles)).2 := by
    simp only [compileAndWriteFilesParallel]
    rw [if_neg hcond, runBatches_flatten, makeBatches_flatten BATCH_SIZE (by decide) _]
  have hall : ∀ r ∈ compileFilesParallelPhase2 env sourceFiles, truthySource r = true →
      (runWriteTasks env.getOutputPath true fs
        (compileFilesParallelPhase2 env sourceFiles)).2 (env.getOutputPath r.sourceFile) =
        r.source :=
    runWriteTasks_final env.getOutputPath (compileFilesParallelPhase2 env sourceFiles) fs hcompat
  have hnoop := runWriteTasks_noop env.getOutputPath (compileFilesParallelPhase2 env sourceFiles)
    (runWriteTasks env.getOutputPath true fs (compileFilesParallelPhase2 env sourceFiles)).2 hall
  constructor
  · rw [hfs1]
    simp only [compileAndWriteFilesParallel]
    rw [if_neg hcond, runBatches_flatten, makeBatches_flatten BATCH_SIZE (by decide) _, hnoop]
  · rw [hfs1]
    simp only [compileAndWriteFilesParallel]
    rw [if_neg hcond, runBatches_flatten, makeBatches_flatten BATCH_SIZE (by decide) _, hnoop]

/-- C5 witness: two clean units against an empty filesystem — the second run
emits nothing and leaves the filesystem of the first run unchanged. -/
theorem writeStage_idempotent_witness :
    hasErrors (collectDiagnostics (compileFilesParallelPhase2 testEnv ["a", "c"])) = false ∧
      ((compileAndWriteFilesParallel testEnv true
          (compileAndWriteFilesParallel testEnv true fsEmpty ["a", "c"]).2
          ["a", "c"]).1.emittedFiles = some [] ∧
        (compileAndWriteFilesParallel testEnv true
            (compileAndWriteFilesParallel testEnv true fsEmpty ["a", "c"]).2 ["a", "c"]).2 =
          (compileAndWriteFilesParallel testEnv true fsEmpty ["a", "c"]).2) :=
  ⟨by decide, writeStage_idempotent testEnv fsEmpty ["a", "c"] (by decide) (by decide)⟩

end Pipeline
